import Mathlib

/-!
# Verification of the quilkin packet-routing core

Shallow embedding of the routing filters of the repository:

* `src/src/filters/session_router/mod.rs` and `config.rs`
  (`SessionRouter`, `SessionRouterConfig`, the token-map refresh loop);
* `src/src/filters/source_ip_router.rs` and `source_ip_router/config.rs`
  (`SourceIpRouter`, `Config`, `Route`, `Cidr`);
* `src/src/extensions/filters/load_balancer/mod.rs`
  (`RoundRobinEndpointChooser`).

Rust `HashMap`s are modelled as association lists (`assoc_get` /
cons-insert), `usize` as `Nat` reduced mod `2^64` where the arithmetic can
wrap, and fallible operations return `Option`/`Except`.  Functions of the
standard library and of external crates that the repository calls
(`base64`, `ipnetwork`, address formatting/parsing) are given executable
models below, faithful to their documented behaviour.
-/

set_option autoImplicit false


/-! ## Decimal / hexadecimal digit machinery

Models the textual rendering and parsing of numbers used by
`Ipv4Addr`/`Ipv6Addr` `Display`/`FromStr` and by `ipnetwork`'s
`IpNetwork` `Display`/`FromStr` (external crates; the repository calls
them through `.to_string()` / `.parse()`). -/

/-- The character for digit `d` (`0`–`9`, then lowercase `a`–`f`). -/
def digit_char (d : Nat) : Char :=
  if d < 10 then Char.ofNat (48 + d) else Char.ofNat (87 + d)

/-- The value of character `c` as a digit in base `b` (10 or 16), if any. -/
def digit_val (b : Nat) (c : Char) : Option Nat :=
  let v : Option Nat :=
    if 48 ≤ c.toNat ∧ c.toNat ≤ 57 then some (c.toNat - 48)
    else if 97 ≤ c.toNat ∧ c.toNat ≤ 102 then some (c.toNat - 87)
    else none
  match v with
  | some d => if d < b then some d else none
  | none => none

/-- Base-`b` digits of `n`, least significant first, driven by explicit
fuel so that the definition is structural (fuel `≥ n` suffices). -/
def digits_rev_fuel (b : Nat) : Nat → Nat → List Nat
  | 0, _ => []
  | _ + 1, 0 => []
  | fuel + 1, n => n % b :: digits_rev_fuel b fuel (n / b)

/-- Textual rendering of `n` in base `b`, most significant digit first. -/
def render_nat (b n : Nat) : List Char :=
  if n = 0 then ['0'] else ((digits_rev_fuel b n n).map digit_char).reverse

/-- Value of a most-significant-first digit list in base `b`. -/
def digits_val (b : Nat) (ds : List Nat) : Nat :=
  ds.foldl (fun acc d => acc * b + d) 0

/-- Consume the longest prefix of base-`b` digit characters, returning
their values and the rest of the input. -/
def take_digits (b : Nat) : List Char → List Nat × List Char
  | [] => ([], [])
  | c :: rest =>
    match digit_val b c with
    | some d =>
      let (ds, r) := take_digits b rest
      (d :: ds, r)
    | none => ([], c :: rest)

/-- Parse a base-`b` number from the front of the input (at least one
digit required). -/
def parse_nat_pre (b : Nat) (cs : List Char) : Option (Nat × List Char) :=
  match take_digits b cs with
  | ([], _) => none
  | (ds, rest) => some (digits_val b ds, rest)

/-- Expect a specific single character at the front of the input. -/
def expect_char (c : Char) : List Char → Option (List Char)
  | x :: rest => if x = c then some rest else none
  | [] => none

/-! ## IP addresses

`IpAddr.v4 a` carries the 32-bit big-endian value of an `Ipv4Addr`,
`IpAddr.v6 a` the 128-bit value of an `Ipv6Addr`. -/

/-- Model of `std::net::IpAddr`. -/
inductive IpAddr where
  | v4 (addr : Nat)
  | v6 (addr : Nat)
deriving DecidableEq, Repr

/-- Model of `Ipv6Addr::to_ipv4`: `Some` when the first 80 bits are zero
and bits 80–95 are all-zero (IPv4-compatible) or all-one (IPv4-mapped);
the embedded address is the low 32 bits. -/
def ipv6_to_ipv4 (a : Nat) : Option Nat :=
  if a / 2 ^ 32 = 0 ∨ a / 2 ^ 32 = 0xffff then some (a % 2 ^ 32) else none

/-- Decimal dotted-quad rendering of an `Ipv4Addr` (`Display`). -/
def render_ipv4 (a : Nat) : List Char :=
  render_nat 10 (a / 16777216 % 256) ++ '.' ::
  (render_nat 10 (a / 65536 % 256) ++ '.' ::
  (render_nat 10 (a / 256 % 256) ++ '.' :: render_nat 10 (a % 256)))

/-- Parse one decimal octet (`0`–`255`) from the front of the input. -/
def parse_octet (cs : List Char) : Option (Nat × List Char) := do
  let (v, rest) ← parse_nat_pre 10 cs
  if v ≤ 255 then some (v, rest) else none

/-- Parse a dotted-quad `Ipv4Addr` from the front of the input
(`FromStr`, modelled without the leading-zero rejection). -/
def parse_ipv4_pre (cs : List Char) : Option (Nat × List Char) := do
  let (o1, r1) ← parse_octet cs
  let r1b ← expect_char '.' r1
  let (o2, r2) ← parse_octet r1b
  let r2b ← expect_char '.' r2
  let (o3, r3) ← parse_octet r2b
  let r3b ← expect_char '.' r3
  let (o4, r4) ← parse_octet r3b
  some (o1 * 16777216 + o2 * 65536 + o3 * 256 + o4, r4)

/-! ## Endpoint addresses -/

/-- Model of quilkin's `EndpointAddress` (`crate::net::endpoint::address`,
not part of the corpus).  Modelled from the spec: an upstream or client
address is a plain `host:port` pair; the hostname variant of the real
type is out of scope (the spec's data model only uses plain addresses). -/
structure EndpointAddress where
  host : IpAddr
  port : Nat
deriving DecidableEq, Repr

/-- Model of quilkin's `Endpoint` (`crate::net::endpoint`, not part of the
corpus).  Modelled from the spec: "an upstream address plus optional
opaque metadata"; `Endpoint::new` attaches default (empty) metadata, which
we omit since no claim observes it. -/
structure Endpoint where
  address : EndpointAddress
deriving DecidableEq, Repr

/-- Model of parsing a `"host:port"` string to an `EndpointAddress`
(`EndpointAddress: FromStr` / `SocketAddr: FromStr`; external to the
corpus).  Modelled from the spec: "parse the resolved host:port string to
an endpoint".  IPv4 `a.b.c.d:port` form. -/
def parse_endpoint_address (s : String) : Option EndpointAddress := do
  let (a, r1) ← parse_ipv4_pre s.data
  let r2 ← expect_char ':' r1
  let (p, r3) ← parse_nat_pre 10 r2
  match r3 with
  | [] => if p ≤ 65535 then some ⟨IpAddr.v4 a, p⟩ else none
  | _ :: _ => none

/-! ## Association lists (model of `std::collections::HashMap`) -/

/-- First-match lookup in an association list; `HashMap::get`. -/
def assoc_get {α β : Type} [DecidableEq α] : List (α × β) → α → Option β
  | [], _ => none
  | (k, v) :: rest, key => if key = k then some v else assoc_get rest key

/-! ## Base64 (model of the `base64` crate's `STANDARD` engine) -/

/-- The standard base64 alphabet. -/
def base64_alphabet : List Char :=
  "ABCDEFGHIJKLMNOPQRSTUVWXYZabcdefghijklmnopqrstuvwxyz0123456789+/".data

/-- The alphabet character for a 6-bit value. -/
def b64_char (n : Nat) : Char := base64_alphabet.getD n '?'

/-- Encode bytes three at a time, `=`-padding the final partial chunk. -/
def base64_encode_chunks : List Nat → List Char
  | [] => []
  | [b0] => [b64_char (b0 / 4), b64_char (b0 % 4 * 16), '=', '=']
  | [b0, b1] =>
      [b64_char (b0 / 4), b64_char (b0 % 4 * 16 + b1 / 16),
       b64_char (b1 % 16 * 4), '=']
  | b0 :: b1 :: b2 :: rest =>
      b64_char (b0 / 4) :: b64_char (b0 % 4 * 16 + b1 / 16) ::
      b64_char (b1 % 16 * 4 + b2 / 64) :: b64_char (b2 % 64) ::
      base64_encode_chunks rest

/-- Model of `STANDARD.encode` from the `base64` crate. -/
def base64_encode (bytes : List Nat) : String :=
  String.mk (base64_encode_chunks bytes)

/-! ## Load balancer (`src/src/extensions/filters/load_balancer/mod.rs`) -/

/-- Model: `usize` arithmetic wraps at `2^64`; `AtomicUsize::fetch_add` uses
wrapping addition. -/
def USIZE_MOD : Nat := 2 ^ 64

/-- Model: `UpstreamEndpoints::keep`: collapse the candidate view to the single
element at `i`; fails (`Err`, which the caller `.expect`s) when `i` is
out of range. -/
def keep {α : Type} (l : List α) (i : Nat) : Option (List α) :=
  (l.get? i).map (fun x => [x])

/-- Model: `RoundRobinEndpointChooser::choose_endpoints`: take the pre-increment
counter value (`fetch_add(1)` wraps at `2^64`), then collapse the
candidate set to index `count % num_endpoints`.  The first component is
the new counter value, the second the collapsed candidate set. -/
def RoundRobinEndpointChooser.choose_endpoints {α : Type}
    (next_endpoint : Nat) (endpoints : List α) : Nat × Option (List α) :=
  let count := next_endpoint
  let num_endpoints := endpoints.length
  ((next_endpoint + 1) % USIZE_MOD, keep endpoints (count % num_endpoints))

/-- The sequence of selections over `k` consecutive invocations of
`choose_endpoints` starting from counter value `st`. -/
def rr_trace {α : Type} (st : Nat) (endpoints : List α) :
    Nat → List (Option (List α))
  | 0 => []
  | k + 1 =>
    (RoundRobinEndpointChooser.choose_endpoints st endpoints).2 ::
      rr_trace (RoundRobinEndpointChooser.choose_endpoints st endpoints).1
        endpoints k

/-- The sequence of chosen indices over `k` consecutive invocations
against a candidate set of size `n`, starting from counter value `st`. -/
def rr_indices (st n : Nat) : Nat → List Nat
  | 0 => []
  | k + 1 => st % n :: rr_indices ((st + 1) % USIZE_MOD) n k

/-! ## Filter contract -/

/-- Model of `FilterError` (only the variant the corpus constructs). -/
inductive FilterError where
  | Custom (msg : String)
deriving DecidableEq, Repr

/-- Model of `ReadContext`: source address, payload bytes, and the
mutable ordered destination list. -/
structure ReadContext where
  source : EndpointAddress
  contents : List Nat
  destinations : List EndpointAddress
deriving DecidableEq, Repr

/-! ## Session-affinity router (`src/src/filters/session_router`) -/

/-- Model: `SessionRouterConfig` from `session_router/config.rs`. -/
structure SessionRouterConfig where
  handshake_bytes : Nat
  dynamo_table_name : String
deriving DecidableEq, Repr

/-- Model: `default_handshake_bytes` from `session_router/config.rs`. -/
def default_handshake_bytes : Nat := 4

/-- Model: `default_table_name` from `session_router/config.rs`. -/
def default_table_name : String := "MyMatchmakingTable"

/-- Model: `Default for SessionRouterConfig`. -/
def SessionRouterConfig.default : SessionRouterConfig :=
  ⟨default_handshake_bytes, default_table_name⟩

/-- The `SessionRouter` filter state: its config, the session cache
(`sessions: Mutex<HashMap<EndpointAddress, Endpoint>>`) and the token map
(`token_map: Arc<Mutex<HashMap<String, String>>>`), both modelled as
association lists.  The `poll_handle` is the background task modelled
separately as `refresh_step` / `refresh_run`. -/
structure SessionRouter where
  config : SessionRouterConfig
  sessions : List (EndpointAddress × Endpoint)
  token_map : List (String × String)

/-- Model: `SessionRouter::lookup_endpoint`: token-map lookup, then parse the
stored `"ip:port"` value, silently dropping a parse failure
(`.and_then(|ip_port| ip_port.parse().ok()).map(Endpoint::new)`). -/
def SessionRouter.lookup_endpoint (r : SessionRouter) (token : String) :
    Option Endpoint :=
  (assoc_get r.token_map token).bind
    (fun ip_port => (parse_endpoint_address ip_port).map Endpoint.mk)

/-- Model: `SessionRouter::read` (`Filter for SessionRouter`).  Returns the Rust
`Result<(), FilterError>` together with the updated filter state and
context.  `ctx.contents.split_prefix(needed)` is modelled by
`take`/`drop`. -/
def SessionRouter.read (r : SessionRouter) (ctx : ReadContext) :
    Except FilterError Unit × SessionRouter × ReadContext :=
  let src := ctx.source
  match assoc_get r.sessions src with
  | some ep =>
      (Except.ok (), r, { ctx with destinations := [ep.address] })
  | none =>
      let needed := r.config.handshake_bytes
      if ctx.contents.length < needed then
        (Except.ok (), r, { ctx with destinations := [] })
      else
        let handshake_data := ctx.contents.take needed
        let remaining := ctx.contents.drop needed
        let token := base64_encode handshake_data
        match r.lookup_endpoint token with
        | some endpoint =>
            (Except.ok (),
             { r with sessions := (src, endpoint) :: r.sessions },
             { ctx with contents := remaining,
                        destinations := [endpoint.address] })
        | none =>
            (Except.ok (), r,
             { ctx with contents := remaining, destinations := [] })

/-! ## Source-IP router (`src/src/filters/source_ip_router.rs`,
`source_ip_router/config.rs`) -/

/-- Model of `ipnetwork::Ipv4Network`: a 32-bit address value and a
prefix length.  Valid values satisfy `addr < 2^32` and
`prefix_len ≤ 32`. -/
structure Ipv4Network where
  addr : Nat
  prefix_len : Nat
deriving DecidableEq, Repr

/-- Model of `ipnetwork::Ipv6Network`. -/
structure Ipv6Network where
  addr : Nat
  prefix_len : Nat
deriving DecidableEq, Repr

/-- Model of `ipnetwork::IpNetwork`. -/
inductive IpNetwork where
  | v4 (n : Ipv4Network)
  | v6 (n : Ipv6Network)
deriving DecidableEq, Repr

/-- Model: `Ipv4Network::contains`: the address agrees with the network address
on the `prefix_len` leading bits (the crate masks both sides with the
netmask; comparing the values shifted right by `32 - prefix_len` is the
same test). -/
def Ipv4Network.contains (n : Ipv4Network) (ip : Nat) : Bool :=
  ip >>> (32 - n.prefix_len) == n.addr >>> (32 - n.prefix_len)

/-- Model: `Ipv6Network::contains`, same shape with 128-bit values. -/
def Ipv6Network.contains (n : Ipv6Network) (ip : Nat) : Bool :=
  ip >>> (128 - n.prefix_len) == n.addr >>> (128 - n.prefix_len)

/-- Model: `IpNetwork::contains` over an `IpAddr`: delegates when the versions
agree and returns `false` on a version mismatch. -/
def IpNetwork.contains (n : IpNetwork) (ip : IpAddr) : Bool :=
  match n, ip with
  | .v4 n4, .v4 a => n4.contains a
  | .v6 n6, .v6 a => n6.contains a
  | _, _ => false

/-- Model: `Cidr` from `source_ip_router/config.rs`: a newtype over
`IpNetwork` (the Rust tuple field `.0` is named `network` here). -/
structure Cidr where
  network : IpNetwork
deriving DecidableEq, Repr

/-- Model: `Cidr::contains`: an IPv4 network tested against an IPv6 address
first tries `Ipv6Addr::to_ipv4`; every other combination delegates to
`IpNetwork::contains`. -/
def Cidr.contains (c : Cidr) (ip : IpAddr) : Bool :=
  match c.network, ip with
  | .v4 v4net, .v6 v6 =>
    match ipv6_to_ipv4 v6 with
    | some mapped_v4 => v4net.contains mapped_v4
    | none => false
  | _, _ => c.network.contains ip

/-- Model: `Route` from `source_ip_router/config.rs`. -/
structure Route where
  sources : List Cidr
  endpoint : String
deriving DecidableEq, Repr

/-- Model: `Config` from `source_ip_router/config.rs`. -/
structure Config where
  routes : List Route
deriving DecidableEq, Repr

/-- The `SourceIpRouter` filter: its ordered route list. -/
structure SourceIpRouter where
  routes : List Route
deriving DecidableEq, Repr

/-- Model: `SourceIpRouter::new`. -/
def SourceIpRouter.new (cfg : Config) : SourceIpRouter := ⟨cfg.routes⟩

/-- The route-iteration loop of `SourceIpRouter::read`: first route any
of whose CIDRs contains the source wins; its endpoint string must parse
(`&str::parse::<SocketAddr>`) or the packet's processing aborts with a
filter-level error; with no match the context is left untouched. -/
def source_ip_route_step (src_ip : IpAddr) (ctx : ReadContext) :
    List Route → Except FilterError Unit × ReadContext
  | [] => (Except.ok (), ctx)
  | route :: rest =>
    if route.sources.any (fun cidr => cidr.contains src_ip) then
      match parse_endpoint_address route.endpoint with
      | some socket_addr =>
          (Except.ok (), { ctx with destinations := [socket_addr] })
      | none =>
          (Except.error (FilterError.Custom "Invalid endpoint address"), ctx)
    else source_ip_route_step src_ip ctx rest

/-- Model: `SourceIpRouter::read` (`Filter for SourceIpRouter`).  In the model
`ctx.source.to_socket_addr()?.ip()` is the total projection
`ctx.source.host` (the hostname variant that could fail resolution is
out of scope, see `EndpointAddress`). -/
def SourceIpRouter.read (f : SourceIpRouter) (ctx : ReadContext) :
    Except FilterError Unit × ReadContext :=
  source_ip_route_step ctx.source.host ctx f.routes

/-- A route matches when any of its CIDRs contains the source address. -/
def route_matches (src_ip : IpAddr) (route : Route) : Bool :=
  route.sources.any (fun cidr => cidr.contains src_ip)

/-! ## Background token-map refresh (`SessionRouter::new`, the spawned
loop in `src/src/filters/session_router/mod.rs`).

The loop suspends on `tokio::time::sleep(poll_interval)` between
attempts; real time is modelled by one schedule entry per interval, and
the outcome of each `fetch_tokens_from_dynamo` call by an `Except`
value. -/

/-- Model: `poll_interval` (`Duration::from_secs(10)`), in seconds. -/
def poll_interval_secs : Nat := 10

/-- One iteration of the loop body: a successful scan replaces the whole
token map (`*tm.lock() = latest`), a failed scan only logs and leaves it
as it was. -/
def refresh_step (tm : List (String × String))
    (scan : Except String (List (String × String))) :
    List (String × String) :=
  match scan with
  | .ok latest => latest
  | .error _ => tm

/-- The refresh loop run against a finite schedule of scan outcomes, one
per poll interval: the token-map states observed before each attempt and
after the last one. -/
def refresh_trace (tm : List (String × String)) :
    List (Except String (List (String × String))) →
      List (List (String × String))
  | [] => [tm]
  | s :: rest => tm :: refresh_trace (refresh_step tm s) rest

/-! ## Config ↔ protobuf conversions (C7)

Binary counterparts of the filter configs and the conversions of
`src/src/filters/source_ip_router.rs` (`From<Config>` /
`TryFrom<proto::SourceIpRouter>`), `src/src/filters/session_router/config.rs`
(`TryFrom` both ways) and the factory encode helpers of
`src/src/filters/session_router/mod.rs`.

The `ipnetwork` display/parse pair is modelled concretely: IPv4 networks
render as `a.b.c.d/p`, IPv6 networks as eight lowercase hex groups
`g:g:g:g:g:g:g:g/p` (without RFC 5952 zero-compression, which parsing
also accepts, so round-trips are unaffected); parsing accepts what
rendering produces and rejects version-foreign shapes. -/

/-- Uncompressed lowercase-hex rendering of an `Ipv6Addr`. -/
def render_ipv6 (a : Nat) : List Char :=
  render_nat 16 (a / 2 ^ 112 % 65536) ++ ':' ::
  (render_nat 16 (a / 2 ^ 96 % 65536) ++ ':' ::
  (render_nat 16 (a / 2 ^ 80 % 65536) ++ ':' ::
  (render_nat 16 (a / 2 ^ 64 % 65536) ++ ':' ::
  (render_nat 16 (a / 2 ^ 48 % 65536) ++ ':' ::
  (render_nat 16 (a / 2 ^ 32 % 65536) ++ ':' ::
  (render_nat 16 (a / 2 ^ 16 % 65536) ++ ':' ::
  render_nat 16 (a % 65536)))))))

/-- Parse one hex group (`0`–`ffff`) from the front of the input. -/
def parse_hex_group (cs : List Char) : Option (Nat × List Char) := do
  let (v, rest) ← parse_nat_pre 16 cs
  if v ≤ 65535 then some (v, rest) else none

/-- Parse one hex group followed by a `':'` separator. -/
def parse_group_colon (cs : List Char) : Option (Nat × List Char) := do
  let (g, r) ← parse_hex_group cs
  let r2 ← expect_char ':' r
  some (g, r2)

/-- Parse an uncompressed `Ipv6Addr` from the front of the input. -/
def parse_ipv6_pre (cs : List Char) : Option (Nat × List Char) := do
  let (g1, r1) ← parse_group_colon cs
  let (g2, r2) ← parse_group_colon r1
  let (g3, r3) ← parse_group_colon r2
  let (g4, r4) ← parse_group_colon r3
  let (g5, r5) ← parse_group_colon r4
  let (g6, r6) ← parse_group_colon r5
  let (g7, r7) ← parse_group_colon r6
  let (g8, r8) ← parse_hex_group r7
  some (g1 * 2 ^ 112 + g2 * 2 ^ 96 + g3 * 2 ^ 80 + g4 * 2 ^ 64 +
        g5 * 2 ^ 48 + g6 * 2 ^ 32 + g7 * 2 ^ 16 + g8, r8)

/-- Model: `Display for IpNetwork`: `"{addr}/{prefix}"`. -/
def ip_network_to_string (n : IpNetwork) : String :=
  match n with
  | .v4 n4 => String.mk (render_ipv4 n4.addr ++ '/' :: render_nat 10 n4.prefix_len)
  | .v6 n6 => String.mk (render_ipv6 n6.addr ++ '/' :: render_nat 10 n6.prefix_len)

/-- Model: `Ipv4Network: FromStr` (the `addr/prefix` form; the crate also
accepts a bare address, which rendering never produces). -/
def parse_ipv4_net (cs : List Char) : Option IpNetwork := do
  let (a, r1) ← parse_ipv4_pre cs
  let r2 ← expect_char '/' r1
  let (p, r3) ← parse_nat_pre 10 r2
  match r3 with
  | [] => if p ≤ 32 then some (IpNetwork.v4 ⟨a, p⟩) else none
  | _ :: _ => none

/-- Model: `Ipv6Network: FromStr`, same shape. -/
def parse_ipv6_net (cs : List Char) : Option IpNetwork := do
  let (a, r1) ← parse_ipv6_pre cs
  let r2 ← expect_char '/' r1
  let (p, r3) ← parse_nat_pre 10 r2
  match r3 with
  | [] => if p ≤ 128 then some (IpNetwork.v6 ⟨a, p⟩) else none
  | _ :: _ => none

/-- Model: `IpNetwork: FromStr`: try the IPv4 form first, then the IPv6 form. -/
def parse_ip_network (s : String) : Option IpNetwork :=
  match parse_ipv4_net s.data with
  | some n => some n
  | none => parse_ipv6_net s.data

/-- Model: `ConvertProtoConfigError` (message plus offending field). -/
structure ConvertProtoConfigError where
  message : String
  field : Option String
deriving DecidableEq, Repr

/-- Model: `proto::source_ip_router::Route` (generated protobuf struct). -/
structure ProtoRoute where
  sources : List String
  endpoint : String
deriving DecidableEq, Repr

/-- Model: `proto::SourceIpRouter` (generated protobuf struct). -/
structure ProtoSourceIpRouter where
  routes : List ProtoRoute
deriving DecidableEq, Repr

/-- Model: `From<Config> for proto::SourceIpRouter`: each `Cidr` becomes
`cidr.0.to_string()`, each route keeps its endpoint string. -/
def config_to_proto (cfg : Config) : ProtoSourceIpRouter :=
  ⟨cfg.routes.map (fun r =>
    ⟨r.sources.map (fun cidr => ip_network_to_string cidr.network),
     r.endpoint⟩)⟩

/-- The inner loop of `TryFrom<proto::SourceIpRouter>`: parse each CIDR
string, failing on the first invalid one. -/
def cidrs_from_strings :
    List String → Except ConvertProtoConfigError (List Cidr)
  | [] => Except.ok []
  | s :: rest =>
    match parse_ip_network s with
    | some net => (cidrs_from_strings rest).map (fun cs => Cidr.mk net :: cs)
    | none =>
      Except.error ⟨"Invalid CIDR '" ++ s ++ "'", some "routes.sources"⟩

/-- The outer loop of `TryFrom<proto::SourceIpRouter>`. -/
def routes_from_proto :
    List ProtoRoute → Except ConvertProtoConfigError (List Route)
  | [] => Except.ok []
  | r :: rest =>
    match cidrs_from_strings r.sources with
    | Except.ok cidrs =>
      (routes_from_proto rest).map (fun rs => ⟨cidrs, r.endpoint⟩ :: rs)
    | Except.error e => Except.error e

/-- Model: `TryFrom<proto::SourceIpRouter> for Config`. -/
def config_try_from_proto (pb : ProtoSourceIpRouter) :
    Except ConvertProtoConfigError Config :=
  (routes_from_proto pb.routes).map Config.mk

/-- Model: `SessionRouterConfigProto` from `session_router/config.rs`: a
`uint32` handshake length and the table name. -/
structure SessionRouterConfigProto where
  handshake_bytes : Nat
  dynamo_table_name : String
deriving DecidableEq, Repr

/-- Model: `TryFrom<SessionRouterConfig> for SessionRouterConfigProto`:
`handshake_bytes as u32` truncates to 32 bits. -/
def sessionConfig_to_proto (config : SessionRouterConfig) :
    Except ConvertProtoConfigError SessionRouterConfigProto :=
  Except.ok ⟨config.handshake_bytes % 2 ^ 32, config.dynamo_table_name⟩

/-- Model: `TryFrom<SessionRouterConfigProto> for SessionRouterConfig`:
`handshake_bytes as usize` widens losslessly. -/
def sessionConfig_from_proto (proto : SessionRouterConfigProto) :
    Except ConvertProtoConfigError SessionRouterConfig :=
  Except.ok ⟨proto.handshake_bytes, proto.dynamo_table_name⟩

/-- Minimal model of `serde_json::Value` (only the shapes the factory
helpers can produce or be fed). -/
inductive Json where
  | null
  | str (s : String)
deriving DecidableEq, Repr

/-- Model of `prost_types::Any`; `Any::default()` is `⟨"", []⟩`. -/
structure ProstAny where
  type_url : String
  value : List Nat
deriving DecidableEq, Repr

/-- Model: `CreationError` (the variants the corpus constructs). -/
inductive CreationError where
  | NotFound (s : String)
  | DeserializeFailed (s : String)
  | MissingConfig (s : String)
deriving DecidableEq, Repr

/-- Model: `SessionRouterFactory::encode_config_to_protobuf`: an unimplemented
stub that ignores the config and returns `Any::default()`. -/
def SessionRouterFactory.encode_config_to_protobuf (_config : Json) :
    Except CreationError ProstAny :=
  Except.ok ⟨"", []⟩

/-- Model: `SessionRouterFactory::encode_config_to_json`: an unimplemented stub
that ignores the protobuf and returns `Value::Null`. -/
def SessionRouterFactory.encode_config_to_json (_pb : ProstAny) :
    Except CreationError Json :=
  Except.ok Json.null

/-- A structurally valid `Ipv4Network`/`Ipv6Network` value: address below
the width bound, prefix length within the width. -/
def ip_network_valid (n : IpNetwork) : Bool :=
  match n with
  | .v4 n4 => decide (n4.addr < 2 ^ 32) && decide (n4.prefix_len ≤ 32)
  | .v6 n6 => decide (n6.addr < 2 ^ 128) && decide (n6.prefix_len ≤ 128)

/-- A structurally valid source-IP router config: every CIDR valid. -/
def config_valid (cfg : Config) : Bool :=
  cfg.routes.all (fun r => r.sources.all (fun c => ip_network_valid c.network))

/-- Is the head of the input (if any) not a base-`b` digit?  Guards the
stop condition of greedy digit consumption. -/
def head_not_digit (b : Nat) (cs : List Char) : Bool :=
  match cs with
  | [] => true
  | c :: _ => (digit_val b c).isNone

/-! ## Theorems -/

/-- The trace of selections is the trace of indices applied to `keep`. -/
theorem rr_trace_eq_map_indices {α : Type} (endpoints : List α) :
    ∀ (k st : Nat),
      rr_trace st endpoints k =
        (rr_indices st endpoints.length k).map (keep endpoints)
  | 0, _ => rfl
  | k + 1, st => by
    simp only [rr_trace]
    rw [rr_trace_eq_map_indices endpoints k]
    rfl

/-- In a wrap-free window the chosen indices are `(st + i) % n`. -/
theorem rr_indices_eq (n : Nat) :
    ∀ (k st : Nat), st + k ≤ USIZE_MOD →
      rr_indices st n k = (List.range k).map (fun i => (st + i) % n)
  | 0, st, _ => by simp [rr_indices]
  | k + 1, st, h => by
    cases k with
    | zero => simp [rr_indices, List.range_succ]
    | succ k' =>
      have hlt : st + 1 < USIZE_MOD := by omega
      have hmod : (st + 1) % USIZE_MOD = st + 1 := Nat.mod_eq_of_lt hlt
      show st % n :: rr_indices ((st + 1) % USIZE_MOD) n (k' + 1) = _
      rw [List.range_succ_eq_map, hmod,
        rr_indices_eq n (k' + 1) (st + 1) (by omega)]
      simp only [List.map_cons, List.map_map, Nat.add_zero]
      congr 1
      apply List.map_congr_left
      intro i _
      simp only [Function.comp]
      congr 1
      omega

/-- The map `fun i => (st + i) % n` sends `range n` to a permutation of
`range n`. -/
theorem rr_window_perm (st n : Nat) (hn : 0 < n) :
    ((List.range n).map (fun i => (st + i) % n)).Perm (List.range n) := by
  apply List.perm_of_nodup_nodup_toFinset_eq
  · refine List.Nodup.map_on ?_ (List.nodup_range n)
    intro i hi j hj hij
    simp only [List.mem_range] at hi hj
    have h2 : i % n = j % n :=
      Nat.ModEq.add_left_cancel' st (show (st + i) % n = (st + j) % n from hij)
    rwa [Nat.mod_eq_of_lt hi, Nat.mod_eq_of_lt hj] at h2
  · exact List.nodup_range n
  · apply Finset.ext
    intro j
    simp only [List.mem_toFinset, List.mem_map, List.mem_range]
    constructor
    · rintro ⟨i, _, rfl⟩
      exact Nat.mod_lt _ hn
    · intro hj
      refine ⟨(j + n - st % n) % n, Nat.mod_lt _ hn, ?_⟩
      have hr : st % n < n := Nat.mod_lt _ hn
      have hkey : (st + (j + n - st % n) % n) % n =
          (st + (j + n - st % n)) % n :=
        Nat.ModEq.add_left st (Nat.mod_modEq _ n)
      rw [hkey]
      have hsplit : st + (j + n - st % n) = n * (st / n) + (j + n) := by
        have hdm : n * (st / n) + st % n = st := Nat.div_add_mod st n
        omega
      rw [hsplit, Nat.mul_add_mod, Nat.add_mod_right]
      exact Nat.mod_eq_of_lt hj

/-- C3 (counterexample to the claim as stated): the counter is a wrapping
`usize`; starting the window of `N = 3` consecutive selections at counter
value `2^64 - 1`, the selections are endpoint 0 twice and endpoint 2
never — the window does not visit each endpoint exactly once. -/
theorem roundRobin_cycle_counterexample :
    rr_trace (USIZE_MOD - 1) [10, 20, 30] 3 =
      [some [10], some [10], some [20]] ∧
    some [30] ∉ rr_trace (USIZE_MOD - 1) [10, 20, 30] 3 ∧
    (rr_indices (USIZE_MOD - 1) 3 3).count 2 = 0 := by
  refine ⟨by decide, by decide, by decide⟩

/-- C3 (amended): each invocation collapses a non-empty candidate set to
the element at index `c % N` (where `c` is the pre-increment counter
value), and any `N` consecutive selections whose counter window does not
cross the `usize` wrap (`c + N ≤ 2^64`) visit each of the `N` indices
exactly once. -/
theorem roundRobin_cycle_fair (α : Type) :
    (∀ (st : Nat) (endpoints : List α), endpoints ≠ [] →
      ∃ x, endpoints.get? (st % endpoints.length) = some x ∧
        RoundRobinEndpointChooser.choose_endpoints st endpoints =
          ((st + 1) % USIZE_MOD, some [x])) ∧
    (∀ (c n : Nat), 0 < n → c + n ≤ USIZE_MOD →
      (rr_indices c n n).Perm (List.range n)) := by
  constructor
  · intro st endpoints hne
    have hlen : 0 < endpoints.length := List.length_pos.mpr hne
    have hlt : st % endpoints.length < endpoints.length := Nat.mod_lt _ hlen
    refine ⟨endpoints.get ⟨st % endpoints.length, hlt⟩,
      List.get?_eq_get hlt, ?_⟩
    simp [RoundRobinEndpointChooser.choose_endpoints, keep,
      List.get?_eq_get hlt]
  · intro c n hn hwrap
    rw [rr_indices_eq n n c hwrap]
    exact rr_window_perm c n hn

/-- Witness for `roundRobin_cycle_fair`: three endpoints, counter 5. -/
theorem roundRobin_cycle_fair_witness :
    (∃ x, ([10, 20, 30] : List Nat).get? (5 % 3) = some x ∧
      RoundRobinEndpointChooser.choose_endpoints 5 [10, 20, 30] =
        ((5 + 1) % USIZE_MOD, some [x])) ∧
    (rr_indices 5 3 3).Perm (List.range 3) :=
  ⟨(roundRobin_cycle_fair Nat).1 5 [10, 20, 30] (by decide),
   (roundRobin_cycle_fair Nat).2 5 3 (by decide) (by decide)⟩

example : base64_encode [114, 111, 111, 109] = "cm9vbQ==" := by decide

/-! ## Session-router read theorems (C1, C2, C6, C10) -/

/-- C2: whenever the source address already has a session-cache entry,
`read` returns success with the destination list containing exactly the
cached endpoint; the filter state (hence the session cache) and the
payload are left unchanged, for every payload. -/
theorem sessionRouter_read_established_reuses_cache
    (r : SessionRouter) (ctx : ReadContext) (ep : Endpoint)
    (h : assoc_get r.sessions ctx.source = some ep) :
    r.read ctx =
      (Except.ok (), r, { ctx with destinations := [ep.address] }) := by
  simp [SessionRouter.read, h]

/-- Witness for `sessionRouter_read_established_reuses_cache` at a
concrete established source with an arbitrary payload. -/
theorem sessionRouter_read_established_reuses_cache_witness :
    SessionRouter.read
      ⟨⟨4, "T"⟩, [(⟨IpAddr.v4 2130706433, 5555⟩, ⟨⟨IpAddr.v4 167798085, 7777⟩⟩)], []⟩
      ⟨⟨IpAddr.v4 2130706433, 5555⟩, [1, 2], [⟨IpAddr.v4 1, 1⟩]⟩ =
      (Except.ok (),
       ⟨⟨4, "T"⟩, [(⟨IpAddr.v4 2130706433, 5555⟩, ⟨⟨IpAddr.v4 167798085, 7777⟩⟩)], []⟩,
       ⟨⟨IpAddr.v4 2130706433, 5555⟩, [1, 2], [⟨IpAddr.v4 167798085, 7777⟩]⟩) :=
  sessionRouter_read_established_reuses_cache _ _ _ (by decide)

/-- C1: on an unestablished source, when the payload holds at least
`handshake_bytes` bytes and the base64 encoding of its first
`handshake_bytes` bytes is a token-map key whose value parses as a
`host:port` address, `read` succeeds, the destinations are exactly that
parsed endpoint, and the session cache afterwards maps the source to it. -/
theorem sessionRouter_read_first_handshake_establishes
    (r : SessionRouter) (ctx : ReadContext) (v : String) (a : EndpointAddress)
    (hnew : assoc_get r.sessions ctx.source = none)
    (hlen : r.config.handshake_bytes ≤ ctx.contents.length)
    (htok : assoc_get r.token_map
      (base64_encode (ctx.contents.take r.config.handshake_bytes)) = some v)
    (hparse : parse_endpoint_address v = some a) :
    (r.read ctx).1 = Except.ok () ∧
    (r.read ctx).2.2.destinations = [a] ∧
    assoc_get (r.read ctx).2.1.sessions ctx.source = some ⟨a⟩ := by
  have hlt : ¬ ctx.contents.length < r.config.handshake_bytes :=
    Nat.not_lt.mpr hlen
  have hep : r.lookup_endpoint
      (base64_encode (ctx.contents.take r.config.handshake_bytes)) =
      some ⟨a⟩ := by
    simp [SessionRouter.lookup_endpoint, htok, hparse]
  simp [SessionRouter.read, hnew, hlt, hep, assoc_get]

/-- Witness for `sessionRouter_read_first_handshake_establishes`: the
spec's example — `handshake_bytes = 4`, payload `"room" ++ "HELLO"`,
token map `{"cm9vbQ==" ↦ "10.0.101.69:7777"}`, a fresh source. -/
theorem sessionRouter_read_first_handshake_establishes_witness :
    (SessionRouter.read
        ⟨⟨4, "T"⟩, [], [("cm9vbQ==", "10.0.101.69:7777")]⟩
        ⟨⟨IpAddr.v4 2130706433, 5555⟩,
         [114, 111, 111, 109, 72, 69, 76, 76, 79], []⟩).1 = Except.ok () ∧
    (SessionRouter.read
        ⟨⟨4, "T"⟩, [], [("cm9vbQ==", "10.0.101.69:7777")]⟩
        ⟨⟨IpAddr.v4 2130706433, 5555⟩,
         [114, 111, 111, 109, 72, 69, 76, 76, 79], []⟩).2.2.destinations =
      [⟨IpAddr.v4 167798085, 7777⟩] ∧
    assoc_get
      (SessionRouter.read
        ⟨⟨4, "T"⟩, [], [("cm9vbQ==", "10.0.101.69:7777")]⟩
        ⟨⟨IpAddr.v4 2130706433, 5555⟩,
         [114, 111, 111, 109, 72, 69, 76, 76, 79], []⟩).2.1.sessions
      ⟨IpAddr.v4 2130706433, 5555⟩ = some ⟨⟨IpAddr.v4 167798085, 7777⟩⟩ :=
  sessionRouter_read_first_handshake_establishes _ _
    "10.0.101.69:7777" ⟨IpAddr.v4 167798085, 7777⟩
    (by decide) (by decide) (by decide) (by decide)

/-- C6: on an unestablished source, an undersized payload or an encoded
token that is not a token-map key makes `read` return success with an
empty destination list and the filter state (hence the session cache)
unchanged. -/
theorem sessionRouter_read_short_or_unknown_token_drops
    (r : SessionRouter) (ctx : ReadContext)
    (hnew : assoc_get r.sessions ctx.source = none)
    (h : ctx.contents.length < r.config.handshake_bytes ∨
         (r.config.handshake_bytes ≤ ctx.contents.length ∧
          assoc_get r.token_map
            (base64_encode (ctx.contents.take r.config.handshake_bytes)) =
            none)) :
    (r.read ctx).1 = Except.ok () ∧
    (r.read ctx).2.2.destinations = [] ∧
    (r.read ctx).2.1 = r := by
  rcases h with hshort | ⟨hlen, hmiss⟩
  · simp [SessionRouter.read, hnew, hshort]
  · have hlt : ¬ ctx.contents.length < r.config.handshake_bytes :=
      Nat.not_lt.mpr hlen
    have hep : r.lookup_endpoint
        (base64_encode (ctx.contents.take r.config.handshake_bytes)) =
        none := by
      simp [SessionRouter.lookup_endpoint, hmiss]
    simp [SessionRouter.read, hnew, hlt, hep]

/-- Witness for `sessionRouter_read_short_or_unknown_token_drops`: a
2-byte payload against `handshake_bytes = 4` from a fresh source. -/
theorem sessionRouter_read_short_or_unknown_token_drops_witness :
    ((SessionRouter.read ⟨⟨4, "T"⟩, [], [("cm9vbQ==", "10.0.101.69:7777")]⟩
        ⟨⟨IpAddr.v4 2130706433, 5555⟩, [1, 2], [⟨IpAddr.v4 1, 1⟩]⟩).1 =
        Except.ok ()) ∧
    (SessionRouter.read ⟨⟨4, "T"⟩, [], [("cm9vbQ==", "10.0.101.69:7777")]⟩
        ⟨⟨IpAddr.v4 2130706433, 5555⟩, [1, 2], [⟨IpAddr.v4 1, 1⟩]⟩).2.2.destinations = [] ∧
    (SessionRouter.read ⟨⟨4, "T"⟩, [], [("cm9vbQ==", "10.0.101.69:7777")]⟩
        ⟨⟨IpAddr.v4 2130706433, 5555⟩, [1, 2], [⟨IpAddr.v4 1, 1⟩]⟩).2.1 =
      ⟨⟨4, "T"⟩, [], [("cm9vbQ==", "10.0.101.69:7777")]⟩ :=
  sessionRouter_read_short_or_unknown_token_drops _ _
    (by decide) (Or.inl (by decide))

/-- C10: on an unestablished source whose token is a token-map key but
whose mapped value fails to parse as a `host:port` address, the outcome
is identical to a token-map miss: success, empty destinations, handshake
bytes consumed, and no session-cache entry created. -/
theorem sessionRouter_read_unparsable_value_drops
    (r : SessionRouter) (ctx : ReadContext) (v : String)
    (hnew : assoc_get r.sessions ctx.source = none)
    (hlen : r.config.handshake_bytes ≤ ctx.contents.length)
    (htok : assoc_get r.token_map
      (base64_encode (ctx.contents.take r.config.handshake_bytes)) = some v)
    (hbad : parse_endpoint_address v = none) :
    r.read ctx =
      (Except.ok (), r,
       { ctx with contents := ctx.contents.drop r.config.handshake_bytes,
                  destinations := [] }) := by
  have hlt : ¬ ctx.contents.length < r.config.handshake_bytes :=
    Nat.not_lt.mpr hlen
  have hep : r.lookup_endpoint
      (base64_encode (ctx.contents.take r.config.handshake_bytes)) =
      none := by
    simp [SessionRouter.lookup_endpoint, htok, hbad]
  simp [SessionRouter.read, hnew, hlt, hep]

/-- Witness for `sessionRouter_read_unparsable_value_drops`: the token
map holds `"cm9vbQ==" ↦ "not-an-address"`. -/
theorem sessionRouter_read_unparsable_value_drops_witness :
    SessionRouter.read ⟨⟨4, "T"⟩, [], [("cm9vbQ==", "not-an-address")]⟩
        ⟨⟨IpAddr.v4 2130706433, 5555⟩,
         [114, 111, 111, 109, 72, 69, 76, 76, 79], [⟨IpAddr.v4 1, 1⟩]⟩ =
      (Except.ok (), ⟨⟨4, "T"⟩, [], [("cm9vbQ==", "not-an-address")]⟩,
       ⟨⟨IpAddr.v4 2130706433, 5555⟩, [72, 69, 76, 76, 79], []⟩) :=
  sessionRouter_read_unparsable_value_drops _ _ "not-an-address"
    (by decide) (by decide) (by decide) (by decide)

theorem source_ip_step_found (src_ip : IpAddr) (ctx : ReadContext) :
    ∀ (routes : List Route) (route : Route) (sa : EndpointAddress),
      routes.find? (route_matches src_ip) = some route →
      parse_endpoint_address route.endpoint = some sa →
      source_ip_route_step src_ip ctx routes =
        (Except.ok (), { ctx with destinations := [sa] })
  | [], _, _, hfind, _ => by simp [List.find?] at hfind
  | r :: rest, route, sa, hfind, hparse => by
    by_cases hm : route_matches src_ip r = true
    · rw [List.find?_cons_of_pos _ hm] at hfind
      cases hfind
      simp [source_ip_route_step, route_matches] at hm ⊢
      simp [hm, hparse]
    · rw [List.find?_cons_of_neg _ hm] at hfind
      have hm' : ¬ r.sources.any (fun cidr => cidr.contains src_ip) = true := by
        simpa [route_matches] using hm
      simp only [source_ip_route_step, if_neg hm']
      exact source_ip_step_found src_ip ctx rest route sa hfind hparse

theorem source_ip_step_none (src_ip : IpAddr) (ctx : ReadContext) :
    ∀ (routes : List Route),
      routes.find? (route_matches src_ip) = none →
      source_ip_route_step src_ip ctx routes = (Except.ok (), ctx)
  | [], _ => rfl
  | r :: rest, hfind => by
    rw [List.find?_cons] at hfind
    by_cases hm : route_matches src_ip r = true
    · simp [hm] at hfind
    · have hm' : ¬ r.sources.any (fun cidr => cidr.contains src_ip) = true := by
        simpa [route_matches] using hm
      simp only [source_ip_route_step, if_neg hm']
      apply source_ip_step_none src_ip ctx rest
      simpa [hm] using hfind

theorem source_ip_step_bad_endpoint (src_ip : IpAddr) (ctx : ReadContext) :
    ∀ (routes : List Route) (route : Route),
      routes.find? (route_matches src_ip) = some route →
      parse_endpoint_address route.endpoint = none →
      source_ip_route_step src_ip ctx routes =
        (Except.error (FilterError.Custom "Invalid endpoint address"), ctx)
  | [], _, hfind, _ => by simp [List.find?] at hfind
  | r :: rest, route, hfind, hparse => by
    by_cases hm : route_matches src_ip r = true
    · rw [List.find?_cons_of_pos _ hm] at hfind
      cases hfind
      simp [source_ip_route_step, route_matches] at hm ⊢
      simp [hm, hparse]
    · rw [List.find?_cons_of_neg _ hm] at hfind
      have hm' : ¬ r.sources.any (fun cidr => cidr.contains src_ip) = true := by
        simpa [route_matches] using hm
      simp only [source_ip_route_step, if_neg hm']
      exact source_ip_step_bad_endpoint src_ip ctx rest route hfind hparse

/-- C4: with any ordered route list, if the first route any of whose
CIDRs contains the source address has an endpoint string that parses,
`read` succeeds with the destination list cleared and replaced by exactly
that one address (later routes are irrelevant — the result is fixed by
the first match); and with no matching route the context, destinations
included, is returned untouched with success. -/
theorem sourceIpRouter_read_first_match (f : SourceIpRouter)
    (ctx : ReadContext) :
    (∀ (route : Route) (sa : EndpointAddress),
      f.routes.find? (route_matches ctx.source.host) = some route →
      parse_endpoint_address route.endpoint = some sa →
      f.read ctx = (Except.ok (), { ctx with destinations := [sa] })) ∧
    (f.routes.find? (route_matches ctx.source.host) = none →
      f.read ctx = (Except.ok (), ctx)) := by
  constructor
  · intro route sa hfind hparse
    exact source_ip_step_found ctx.source.host ctx f.routes route sa
      hfind hparse
  · intro hfind
    exact source_ip_step_none ctx.source.host ctx f.routes hfind

/-- Witness for `sourceIpRouter_read_first_match`: two routes whose CIDRs
both contain the source `10.1.2.3`; the first route's endpoint
`10.0.0.1:7000` wins. -/
theorem sourceIpRouter_read_first_match_witness :
    SourceIpRouter.read
        ⟨[⟨[⟨IpNetwork.v4 ⟨167772160, 8⟩⟩], "10.0.0.1:7000"⟩,
          ⟨[⟨IpNetwork.v4 ⟨0, 0⟩⟩], "10.0.0.2:7000"⟩]⟩
        ⟨⟨IpAddr.v4 167838211, 9999⟩, [7], [⟨IpAddr.v4 5, 5⟩]⟩ =
      (Except.ok (),
       ⟨⟨IpAddr.v4 167838211, 9999⟩, [7], [⟨IpAddr.v4 167772161, 7000⟩]⟩) :=
  (sourceIpRouter_read_first_match _ _).1
    ⟨[⟨IpNetwork.v4 ⟨167772160, 8⟩⟩], "10.0.0.1:7000"⟩
    ⟨IpAddr.v4 167772161, 7000⟩ (by decide) (by decide)

/-- C9: if the first matching route's endpoint string does not parse as a
socket address, `read` returns the filter-level error
`Custom "Invalid endpoint address"` and the context — in particular the
destination list — is still exactly what it was on entry. -/
theorem sourceIpRouter_read_bad_endpoint (f : SourceIpRouter)
    (ctx : ReadContext) (route : Route)
    (hfind : f.routes.find? (route_matches ctx.source.host) = some route)
    (hbad : parse_endpoint_address route.endpoint = none) :
    f.read ctx =
      (Except.error (FilterError.Custom "Invalid endpoint address"), ctx) :=
  source_ip_step_bad_endpoint ctx.source.host ctx f.routes route hfind hbad

/-- Witness for `sourceIpRouter_read_bad_endpoint`: a matching route
whose endpoint string is not an address. -/
theorem sourceIpRouter_read_bad_endpoint_witness :
    SourceIpRouter.read
        ⟨[⟨[⟨IpNetwork.v4 ⟨167772160, 8⟩⟩], "not-an-address"⟩]⟩
        ⟨⟨IpAddr.v4 167838211, 9999⟩, [7], [⟨IpAddr.v4 5, 5⟩]⟩ =
      (Except.error (FilterError.Custom "Invalid endpoint address"),
       ⟨⟨IpAddr.v4 167838211, 9999⟩, [7], [⟨IpAddr.v4 5, 5⟩]⟩) :=
  sourceIpRouter_read_bad_endpoint _ _
    ⟨[⟨IpNetwork.v4 ⟨167772160, 8⟩⟩], "not-an-address"⟩
    (by decide) (by decide)

/-- C5: an IPv4 network tested against an IPv6 address matches exactly
when the IPv6 address embeds an IPv4 address (`Ipv6Addr::to_ipv4`) lying
in the network; an IPv6 address with no embedded IPv4 form never matches
an IPv4 network; every other network/address version combination is the
direct `IpNetwork::contains` test. -/
theorem cidr_contains_cases (c : Cidr) :
    (∀ (n4 : Ipv4Network) (a6 : Nat), c.network = IpNetwork.v4 n4 →
      (c.contains (IpAddr.v6 a6) = true ↔
        ∃ m, ipv6_to_ipv4 a6 = some m ∧ n4.contains m = true)) ∧
    (∀ (a4 : Nat), c.contains (IpAddr.v4 a4) = c.network.contains (IpAddr.v4 a4)) ∧
    (∀ (n6 : Ipv6Network) (ip : IpAddr), c.network = IpNetwork.v6 n6 →
      c.contains ip = c.network.contains ip) := by
  obtain ⟨net⟩ := c
  refine ⟨?_, ?_, ?_⟩
  · intro n4 a6 hnet
    simp only [] at hnet
    subst hnet
    cases hmap : ipv6_to_ipv4 a6 with
    | none => simp [Cidr.contains, hmap]
    | some m => simp [Cidr.contains, hmap]
  · intro a4
    cases net with
    | v4 n4 => simp [Cidr.contains]
    | v6 n6 => simp [Cidr.contains]
  · intro n6 ip hnet
    simp only [] at hnet
    subst hnet
    cases ip with
    | v4 a4 => simp [Cidr.contains]
    | v6 a6 => simp [Cidr.contains]

/-- Witness for `cidr_contains_cases` at the spec's example: the network
`10.0.0.0/8` and the IPv4-mapped IPv6 form of `10.1.2.3`
(`::ffff:10.1.2.3`, value `65535 * 2^32 + 167838211`). -/
theorem cidr_contains_cases_witness :
    (Cidr.contains ⟨IpNetwork.v4 ⟨167772160, 8⟩⟩
        (IpAddr.v6 (65535 * 2 ^ 32 + 167838211)) = true ↔
      ∃ m, ipv6_to_ipv4 (65535 * 2 ^ 32 + 167838211) = some m ∧
        Ipv4Network.contains ⟨167772160, 8⟩ m = true) ∧
    Cidr.contains ⟨IpNetwork.v4 ⟨167772160, 8⟩⟩ (IpAddr.v4 3232235777) =
      IpNetwork.contains (IpNetwork.v4 ⟨167772160, 8⟩) (IpAddr.v4 3232235777) :=
  ⟨(cidr_contains_cases ⟨IpNetwork.v4 ⟨167772160, 8⟩⟩).1 ⟨167772160, 8⟩
      (65535 * 2 ^ 32 + 167838211) rfl,
   (cidr_contains_cases ⟨IpNetwork.v4 ⟨167772160, 8⟩⟩).2.1 3232235777⟩

example :
    Cidr.contains ⟨IpNetwork.v4 ⟨167772160, 8⟩⟩
      (IpAddr.v6 (65535 * 2 ^ 32 + 167838211)) = true := by decide

example :
    Cidr.contains ⟨IpNetwork.v4 ⟨167772160, 8⟩⟩ (IpAddr.v4 3232235777) =
      false := by decide

/-- C8: a failed scan leaves the token map exactly as it was and the loop
still performs every following attempt (the trace of a schedule starting
with a failure continues with the unchanged map; a trace always has one
state per scheduled interval); only a successful scan replaces the map,
and then wholesale. -/
theorem refresh_failure_keeps_map :
    (∀ (tm : List (String × String)) (e : String),
      refresh_step tm (Except.error e) = tm) ∧
    (∀ (tm latest : List (String × String)),
      refresh_step tm (Except.ok latest) = latest) ∧
    (∀ (tm : List (String × String)) (e : String)
        (rest : List (Except String (List (String × String)))),
      refresh_trace tm (Except.error e :: rest) =
        tm :: refresh_trace tm rest) ∧
    (∀ (tm : List (String × String))
        (scans : List (Except String (List (String × String)))),
      (refresh_trace tm scans).length = scans.length + 1) := by
  refine ⟨fun _ _ => rfl, fun _ _ => rfl, fun _ _ _ => rfl, fun tm scans => ?_⟩
  induction scans generalizing tm with
  | nil => rfl
  | cons s rest ih => simp [refresh_trace, ih]

theorem head_not_digit_cons (b : Nat) (c : Char) (xs : List Char) :
    head_not_digit b (c :: xs) = (digit_val b c).isNone := rfl

theorem digit_val_digit_char_10 :
    ∀ d, d < 10 → digit_val 10 (digit_char d) = some d := by decide

theorem digit_val_digit_char_16 :
    ∀ d, d < 16 → digit_val 16 (digit_char d) = some d := by decide

theorem take_digits_map_digit_char (b : Nat)
    (hdv : ∀ d, d < b → digit_val b (digit_char d) = some d) :
    ∀ (ds : List Nat) (rest : List Char), (∀ d ∈ ds, d < b) →
      head_not_digit b rest = true →
      take_digits b (ds.map digit_char ++ rest) = (ds, rest)
  | [], rest, _, hrest => by
    cases rest with
    | nil => rfl
    | cons c r =>
      simp only [head_not_digit, Option.isNone_iff_eq_none] at hrest
      simp [take_digits, hrest]
  | d :: ds, rest, hds, hrest => by
    have hd : d < b := hds d (by simp)
    have ih := take_digits_map_digit_char b hdv ds rest
      (fun x hx => hds x (by simp [hx])) hrest
    simp [take_digits, hdv d hd, ih]

theorem digits_rev_fuel_lt (b : Nat) (hb : 2 ≤ b) :
    ∀ (fuel n : Nat), ∀ d ∈ digits_rev_fuel b fuel n, d < b
  | 0, _ => by simp [digits_rev_fuel]
  | fuel + 1, 0 => by simp [digits_rev_fuel]
  | fuel + 1, n + 1 => by
    intro d hd
    simp only [digits_rev_fuel, List.mem_cons] at hd
    rcases hd with h | h
    · subst h; exact Nat.mod_lt _ (by omega)
    · exact digits_rev_fuel_lt b hb fuel ((n + 1) / b) d h

theorem foldl_digits_rev_fuel (b : Nat) (hb : 2 ≤ b) :
    ∀ (fuel n acc : Nat), n ≤ fuel →
      List.foldl (fun acc d => acc * b + d) acc
        ((digits_rev_fuel b fuel n).reverse) =
        acc * b ^ (digits_rev_fuel b fuel n).length + n
  | 0, n, acc, hn => by
    have : n = 0 := by omega
    subst this
    simp [digits_rev_fuel]
  | fuel + 1, 0, acc, _ => by simp [digits_rev_fuel]
  | fuel + 1, n + 1, acc, hn => by
    have hdiv : (n + 1) / b ≤ fuel := by
      have := Nat.div_lt_self (by omega : 0 < n + 1) (by omega : 1 < b)
      omega
    have ih := foldl_digits_rev_fuel b hb fuel ((n + 1) / b) acc hdiv
    have hdm : b * ((n + 1) / b) + (n + 1) % b = n + 1 := Nat.div_add_mod _ _
    simp only [digits_rev_fuel, List.reverse_cons, List.foldl_append,
      List.foldl_cons, List.foldl_nil, ih, List.length_cons]
    rw [pow_succ]
    have : (acc * b ^ (digits_rev_fuel b fuel ((n + 1) / b)).length +
        (n + 1) / b) * b + (n + 1) % b =
        acc * (b ^ (digits_rev_fuel b fuel ((n + 1) / b)).length * b) +
        (b * ((n + 1) / b) + (n + 1) % b) := by ring
    rw [this, hdm]

theorem digits_rev_fuel_ne_nil (b : Nat) (n : Nat) :
    digits_rev_fuel b (n + 1) (n + 1) ≠ [] := by
  simp [digits_rev_fuel]

theorem parse_nat_pre_render (b : Nat) (hb : 2 ≤ b)
    (hdv : ∀ d, d < b → digit_val b (digit_char d) = some d)
    (n : Nat) (rest : List Char)
    (hrest : head_not_digit b rest = true) :
    parse_nat_pre b (render_nat b n ++ rest) = some (n, rest) := by
  cases n with
  | zero =>
    have hr : render_nat b 0 = List.map digit_char [0] := by
      have hc : digit_char 0 = '0' := by decide
      simp [render_nat, hc]
    rw [hr]
    simp only [parse_nat_pre]
    rw [take_digits_map_digit_char b hdv [0] rest
      (by intro d hd; simp at hd; omega) hrest]
    simp [digits_val]
  | succ m =>
    have hmsb : render_nat b (m + 1) =
        List.map digit_char ((digits_rev_fuel b (m + 1) (m + 1)).reverse) := by
      simp [render_nat, List.map_reverse]
    rw [hmsb]
    simp only [parse_nat_pre]
    have hlt : ∀ d ∈ (digits_rev_fuel b (m + 1) (m + 1)).reverse, d < b := by
      intro d hd
      exact digits_rev_fuel_lt b hb _ _ d (List.mem_reverse.mp hd)
    rw [take_digits_map_digit_char b hdv _ rest hlt hrest]
    have hval : digits_val b ((digits_rev_fuel b (m + 1) (m + 1)).reverse) =
        m + 1 := by
      have := foldl_digits_rev_fuel b hb (m + 1) (m + 1) 0 (le_refl _)
      simpa [digits_val] using this
    obtain ⟨d0, ds', hcons⟩ :=
      List.exists_cons_of_ne_nil
        (by simpa using digits_rev_fuel_ne_nil b m :
          (digits_rev_fuel b (m + 1) (m + 1)).reverse ≠ [])
    rw [hcons] at hval ⊢
    simp [hval]

theorem parse_octet_render (o : Nat) (ho : o ≤ 255) (rest : List Char)
    (hrest : head_not_digit 10 rest = true) :
    parse_octet (render_nat 10 o ++ rest) = some (o, rest) := by
  simp only [parse_octet]
  rw [parse_nat_pre_render 10 (by omega) digit_val_digit_char_10 o rest hrest]
  simp [ho]

theorem parse_ipv4_pre_octets (o1 o2 o3 o4 : Nat)
    (h1 : o1 ≤ 255) (h2 : o2 ≤ 255) (h3 : o3 ≤ 255) (h4 : o4 ≤ 255)
    (rest : List Char) (hrest : head_not_digit 10 rest = true) :
    parse_ipv4_pre
      ((render_nat 10 o1 ++ '.' :: (render_nat 10 o2 ++ '.' ::
        (render_nat 10 o3 ++ '.' :: render_nat 10 o4))) ++ rest) =
      some (o1 * 16777216 + o2 * 65536 + o3 * 256 + o4, rest) := by
  simp only [List.cons_append, List.append_assoc]
  simp only [parse_ipv4_pre]
  rw [parse_octet_render o1 h1 _ (by simp [head_not_digit_cons]; decide)]
  simp only [Option.bind_eq_bind, Option.some_bind, expect_char, if_pos]
  rw [parse_octet_render o2 h2 _ (by simp [head_not_digit_cons]; decide)]
  simp only [Option.bind_eq_bind, Option.some_bind, expect_char, if_pos]
  rw [parse_octet_render o3 h3 _ (by simp [head_not_digit_cons]; decide)]
  simp only [Option.bind_eq_bind, Option.some_bind, expect_char, if_pos]
  rw [parse_octet_render o4 h4 _ hrest]
  simp only [Option.bind_eq_bind, Option.some_bind]

theorem parse_ipv4_pre_render (a : Nat) (ha : a < 2 ^ 32) (rest : List Char)
    (hrest : head_not_digit 10 rest = true) :
    parse_ipv4_pre (render_ipv4 a ++ rest) = some (a, rest) := by
  have h := parse_ipv4_pre_octets (a / 16777216 % 256) (a / 65536 % 256)
    (a / 256 % 256) (a % 256)
    (by omega) (by omega) (by omega) (by omega) rest hrest
  rw [render_ipv4]
  rw [h]
  congr 1
  ext
  · omega
  · rfl

theorem parse_hex_group_render (g : Nat) (hg : g ≤ 65535) (rest : List Char)
    (hrest : head_not_digit 16 rest = true) :
    parse_hex_group (render_nat 16 g ++ rest) = some (g, rest) := by
  simp only [parse_hex_group]
  rw [parse_nat_pre_render 16 (by omega) digit_val_digit_char_16 g rest hrest]
  simp [hg]

theorem parse_group_colon_render (g : Nat) (hg : g ≤ 65535)
    (rest : List Char) :
    parse_group_colon (render_nat 16 g ++ ':' :: rest) = some (g, rest) := by
  simp only [parse_group_colon]
  rw [parse_hex_group_render g hg _ (by simp [head_not_digit_cons]; decide)]
  simp [expect_char]

theorem parse_ipv6_pre_groups (g1 g2 g3 g4 g5 g6 g7 g8 : Nat)
    (h1 : g1 ≤ 65535) (h2 : g2 ≤ 65535) (h3 : g3 ≤ 65535) (h4 : g4 ≤ 65535)
    (h5 : g5 ≤ 65535) (h6 : g6 ≤ 65535) (h7 : g7 ≤ 65535) (h8 : g8 ≤ 65535)
    (rest : List Char) (hrest : head_not_digit 16 rest = true) :
    parse_ipv6_pre
      ((render_nat 16 g1 ++ ':' :: (render_nat 16 g2 ++ ':' ::
        (render_nat 16 g3 ++ ':' :: (render_nat 16 g4 ++ ':' ::
        (render_nat 16 g5 ++ ':' :: (render_nat 16 g6 ++ ':' ::
        (render_nat 16 g7 ++ ':' :: render_nat 16 g8))))))) ++ rest) =
      some (g1 * 2 ^ 112 + g2 * 2 ^ 96 + g3 * 2 ^ 80 + g4 * 2 ^ 64 +
            g5 * 2 ^ 48 + g6 * 2 ^ 32 + g7 * 2 ^ 16 + g8, rest) := by
  simp only [List.cons_append, List.append_assoc]
  simp only [parse_ipv6_pre]
  rw [parse_group_colon_render g1 h1]
  simp only [Option.bind_eq_bind, Option.some_bind]
  rw [parse_group_colon_render g2 h2]
  simp only [Option.bind_eq_bind, Option.some_bind]
  rw [parse_group_colon_render g3 h3]
  simp only [Option.bind_eq_bind, Option.some_bind]
  rw [parse_group_colon_render g4 h4]
  simp only [Option.bind_eq_bind, Option.some_bind]
  rw [parse_group_colon_render g5 h5]
  simp only [Option.bind_eq_bind, Option.some_bind]
  rw [parse_group_colon_render g6 h6]
  simp only [Option.bind_eq_bind, Option.some_bind]
  rw [parse_group_colon_render g7 h7]
  simp only [Option.bind_eq_bind, Option.some_bind]
  rw [parse_hex_group_render g8 h8 _ hrest]
  simp only [Option.bind_eq_bind, Option.some_bind]

theorem parse_ipv6_pre_render (a : Nat) (ha : a < 2 ^ 128) (rest : List Char)
    (hrest : head_not_digit 16 rest = true) :
    parse_ipv6_pre (render_ipv6 a ++ rest) = some (a, rest) := by
  have h := parse_ipv6_pre_groups (a / 2 ^ 112 % 65536) (a / 2 ^ 96 % 65536)
    (a / 2 ^ 80 % 65536) (a / 2 ^ 64 % 65536) (a / 2 ^ 48 % 65536)
    (a / 2 ^ 32 % 65536) (a / 2 ^ 16 % 65536) (a % 65536)
    (by omega) (by omega) (by omega) (by omega)
    (by omega) (by omega) (by omega) (by omega) rest hrest
  rw [render_ipv6]
  rw [h]
  congr 1
  ext
  · omega
  · rfl

theorem parse_ipv4_net_render (a p : Nat) (ha : a < 2 ^ 32) (hp : p ≤ 32) :
    parse_ipv4_net (render_ipv4 a ++ '/' :: render_nat 10 p) =
      some (IpNetwork.v4 ⟨a, p⟩) := by
  simp only [parse_ipv4_net]
  rw [parse_ipv4_pre_render a ha _ (by simp [head_not_digit_cons]; decide)]
  simp only [Option.bind_eq_bind, Option.some_bind, expect_char, if_pos]
  have hn : render_nat 10 p = render_nat 10 p ++ [] := by simp
  rw [hn, parse_nat_pre_render 10 (by omega) digit_val_digit_char_10 p [] rfl]
  simp [hp]

theorem parse_ipv6_net_render (a p : Nat) (ha : a < 2 ^ 128) (hp : p ≤ 128) :
    parse_ipv6_net (render_ipv6 a ++ '/' :: render_nat 10 p) =
      some (IpNetwork.v6 ⟨a, p⟩) := by
  simp only [parse_ipv6_net]
  rw [parse_ipv6_pre_render a ha _ (by simp [head_not_digit_cons]; decide)]
  simp only [Option.bind_eq_bind, Option.some_bind, expect_char, if_pos]
  have hn : render_nat 10 p = render_nat 10 p ++ [] := by simp
  rw [hn, parse_nat_pre_render 10 (by omega) digit_val_digit_char_10 p [] rfl]
  simp [hp]

theorem take_digits_rest_mem (b : Nat) :
    ∀ (cs : List Char), ∀ x ∈ (take_digits b cs).2, x ∈ cs
  | [], x, hx => by simp [take_digits] at hx
  | c :: cs, x, hx => by
    simp only [take_digits] at hx
    cases hdv : digit_val b c with
    | some d =>
      rw [hdv] at hx
      simp only [] at hx
      have := take_digits_rest_mem b cs x
      simp only [List.mem_cons]
      right
      apply this
      revert hx
      cases htd : take_digits b cs with
      | mk ds r => simp
    | none =>
      rw [hdv] at hx
      simpa using hx

theorem parse_nat_pre_rest_mem (b : Nat) (cs : List Char) (v : Nat)
    (rest : List Char) (h : parse_nat_pre b cs = some (v, rest)) :
    ∀ x ∈ rest, x ∈ cs := by
  intro x hx
  apply take_digits_rest_mem b cs x
  revert h
  simp only [parse_nat_pre]
  cases htd : take_digits b cs with
  | mk ds r =>
    cases ds with
    | nil => simp
    | cons d ds' =>
      intro h
      simp only [Option.some.injEq, Prod.mk.injEq] at h
      rw [h.2]
      exact hx

theorem parse_octet_rest_mem (cs : List Char) (v : Nat) (rest : List Char)
    (h : parse_octet cs = some (v, rest)) : ∀ x ∈ rest, x ∈ cs := by
  revert h
  simp only [parse_octet, Option.bind_eq_bind]
  cases hp : parse_nat_pre 10 cs with
  | none => simp
  | some pr =>
    obtain ⟨v', r'⟩ := pr
    simp only [Option.some_bind]
    by_cases hv : v' ≤ 255
    · rw [if_pos hv]
      intro h
      simp only [Option.some.injEq, Prod.mk.injEq] at h
      intro x hx
      exact parse_nat_pre_rest_mem 10 cs v' r' hp x (h.2 ▸ hx)
    · rw [if_neg hv]
      simp

theorem expect_char_mem (c : Char) (cs : List Char) (r : List Char)
    (h : expect_char c cs = some r) : c ∈ cs := by
  cases cs with
  | nil => simp [expect_char] at h
  | cons x xs =>
    simp only [expect_char] at h
    by_cases hx : x = c
    · simp [hx]
    · rw [if_neg hx] at h
      simp at h

theorem parse_ipv4_pre_mem_dot (cs : List Char) (x : Nat × List Char)
    (h : parse_ipv4_pre cs = some x) : '.' ∈ cs := by
  revert h
  simp only [parse_ipv4_pre, Option.bind_eq_bind]
  cases ho1 : parse_octet cs with
  | none => simp
  | some p1 =>
    obtain ⟨o1, r1⟩ := p1
    simp only [Option.some_bind]
    cases he : expect_char '.' r1 with
    | none => simp
    | some r1b =>
      intro _
      exact parse_octet_rest_mem cs o1 r1 ho1 '.' (expect_char_mem '.' r1 r1b he)

theorem parse_ipv4_net_none_of_no_dot (cs : List Char) (hnd : '.' ∉ cs) :
    parse_ipv4_net cs = none := by
  simp only [parse_ipv4_net, Option.bind_eq_bind]
  cases hp : parse_ipv4_pre cs with
  | none => simp
  | some x => exact absurd (parse_ipv4_pre_mem_dot cs x hp) hnd

theorem mem_render_nat (b n : Nat) (hb : 2 ≤ b) :
    ∀ c ∈ render_nat b n, ∃ d, d < b ∧ c = digit_char d := by
  intro c hc
  cases n with
  | zero =>
    have hc0 : c = '0' := by simpa [render_nat] using hc
    exact ⟨0, by omega, by rw [hc0]; decide⟩
  | succ m =>
    simp only [render_nat, if_neg (Nat.succ_ne_zero m), List.mem_reverse,
      List.mem_map] at hc
    obtain ⟨d, hd, rfl⟩ := hc
    exact ⟨d, digits_rev_fuel_lt b hb _ _ d hd, rfl⟩

theorem digit_char_ne_dot : ∀ d, d < 16 → digit_char d ≠ '.' := by decide

theorem no_dot_render_nat (b n : Nat) (hb : 2 ≤ b) (hb16 : b ≤ 16) :
    '.' ∉ render_nat b n := by
  intro hmem
  obtain ⟨d, hd, hc⟩ := mem_render_nat b n hb '.' hmem
  exact digit_char_ne_dot d (by omega) hc.symm

theorem no_dot_v6_string (a p : Nat) :
    '.' ∉ render_ipv6 a ++ '/' :: render_nat 10 p := by
  intro hmem
  simp only [render_ipv6, List.mem_append, List.mem_cons] at hmem
  have h16 : ∀ m : Nat, '.' ∉ render_nat 16 m :=
    fun m => no_dot_render_nat 16 m (by omega) (by omega)
  have h10 : '.' ∉ render_nat 10 p :=
    no_dot_render_nat 10 p (by omega) (by omega)
  rcases hmem with h | h
  · rcases h with h | h
    · exact h16 _ h
    rcases h with h | h
    · simp at h
    rcases h with h | h
    · exact h16 _ h
    rcases h with h | h
    · simp at h
    rcases h with h | h
    · exact h16 _ h
    rcases h with h | h
    · simp at h
    rcases h with h | h
    · exact h16 _ h
    rcases h with h | h
    · simp at h
    rcases h with h | h
    · exact h16 _ h
    rcases h with h | h
    · simp at h
    rcases h with h | h
    · exact h16 _ h
    rcases h with h | h
    · simp at h
    rcases h with h | h
    · exact h16 _ h
    rcases h with h | h
    · simp at h
    · exact h16 _ h
  · rcases h with h | h
    · simp at h
    · exact h10 h

theorem parse_ip_network_render (net : IpNetwork)
    (hv : ip_network_valid net = true) :
    parse_ip_network (ip_network_to_string net) = some net := by
  cases net with
  | v4 n4 =>
    obtain ⟨a, p⟩ := n4
    simp only [ip_network_valid, Bool.and_eq_true, decide_eq_true_eq] at hv
    simp only [parse_ip_network, ip_network_to_string]
    rw [parse_ipv4_net_render a p hv.1 hv.2]
  | v6 n6 =>
    obtain ⟨a, p⟩ := n6
    simp only [ip_network_valid, Bool.and_eq_true, decide_eq_true_eq] at hv
    simp only [parse_ip_network, ip_network_to_string]
    rw [parse_ipv4_net_none_of_no_dot _ (no_dot_v6_string a p)]
    rw [parse_ipv6_net_render a p hv.1 hv.2]

theorem cidrs_from_strings_render :
    ∀ (cs : List Cidr), (∀ c ∈ cs, ip_network_valid c.network = true) →
      cidrs_from_strings (cs.map (fun c => ip_network_to_string c.network)) =
        Except.ok cs
  | [], _ => rfl
  | c :: cs, h => by
    simp only [List.map_cons, cidrs_from_strings]
    rw [parse_ip_network_render c.network (h c (by simp))]
    rw [cidrs_from_strings_render cs (fun x hx => h x (by simp [hx]))]
    rfl

theorem routes_from_proto_render :
    ∀ (routes : List Route),
      (∀ r ∈ routes, ∀ c ∈ r.sources, ip_network_valid c.network = true) →
      routes_from_proto (routes.map (fun r =>
        ⟨r.sources.map (fun c => ip_network_to_string c.network),
         r.endpoint⟩)) = Except.ok routes
  | [], _ => rfl
  | r :: rs, h => by
    simp only [List.map_cons, routes_from_proto]
    rw [cidrs_from_strings_render r.sources (h r (by simp))]
    rw [routes_from_proto_render rs (fun x hx => h x (by simp [hx]))]
    rfl

/-- C7 (counterexample to the claim as stated): the Session Router
conversions are not lossless.  `handshake_bytes as u32` truncates, so the
config with `handshake_bytes = 2^32` round-trips to `0`; and the
factory's protobuf encode helpers are stubs that discard every config
(`Any::default()` out, `Value::Null` back). -/
theorem config_conversion_counterexample :
    ((sessionConfig_to_proto ⟨2 ^ 32, "T"⟩).bind sessionConfig_from_proto =
      Except.ok (⟨0, "T"⟩ : SessionRouterConfig)) ∧
    (⟨0, "T"⟩ : SessionRouterConfig) ≠ ⟨2 ^ 32, "T"⟩ ∧
    ((SessionRouterFactory.encode_config_to_protobuf (Json.str "cfg")).bind
      SessionRouterFactory.encode_config_to_json = Except.ok Json.null) ∧
    Json.null ≠ Json.str "cfg" := by
  refine ⟨?_, by decide, rfl, by decide⟩
  have : (2 ^ 32 : Nat) % 2 ^ 32 = 0 := by norm_num
  simp [sessionConfig_to_proto, sessionConfig_from_proto, Except.bind, this]

/-- C7 (amended): the Source-IP Router structured→binary→structured
round trip is the identity for every structurally valid config (CIDR
addresses within their version's width, prefix lengths within bounds),
and the Session Router `TryFrom` pair round-trips exactly when
`handshake_bytes` fits in 32 bits; the factory-level protobuf helpers
are excluded (they are unimplemented stubs). -/
theorem config_conversion_roundtrip :
    (∀ cfg : Config, config_valid cfg = true →
      config_try_from_proto (config_to_proto cfg) = Except.ok cfg) ∧
    (∀ c : SessionRouterConfig, c.handshake_bytes < 2 ^ 32 →
      (sessionConfig_to_proto c).bind sessionConfig_from_proto =
        Except.ok c) := by
  constructor
  · intro cfg h
    simp only [config_valid, List.all_eq_true] at h
    simp only [config_try_from_proto, config_to_proto]
    rw [routes_from_proto_render cfg.routes (fun r hr c hc => h r hr c hc)]
    rfl
  · intro c hc
    have hstep : (sessionConfig_to_proto c).bind sessionConfig_from_proto =
        Except.ok (⟨c.handshake_bytes % 2 ^ 32, c.dynamo_table_name⟩ :
          SessionRouterConfig) := rfl
    rw [hstep, Nat.mod_eq_of_lt hc]

/-- Witness for `config_conversion_roundtrip`: a config with one route
holding an IPv4 CIDR (`10.0.0.0/8`) and an IPv6 CIDR, and the default
session config. -/
theorem config_conversion_roundtrip_witness :
    config_try_from_proto (config_to_proto
      ⟨[⟨[⟨IpNetwork.v4 ⟨167772160, 8⟩⟩, ⟨IpNetwork.v6 ⟨1, 128⟩⟩],
         "10.0.0.1:7000"⟩]⟩) =
      Except.ok
        ⟨[⟨[⟨IpNetwork.v4 ⟨167772160, 8⟩⟩, ⟨IpNetwork.v6 ⟨1, 128⟩⟩],
           "10.0.0.1:7000"⟩]⟩ ∧
    (sessionConfig_to_proto ⟨4, "MyMatchmakingTable"⟩).bind
      sessionConfig_from_proto =
      Except.ok (⟨4, "MyMatchmakingTable"⟩ : SessionRouterConfig) :=
  ⟨config_conversion_roundtrip.1 _ (by decide),
   config_conversion_roundtrip.2 _ (by decide)⟩
